import Mathlib

/-!
# Activity Registry — formal model and verification

A shallow embedding of the school-activities API: an in-memory registry
mapping activity names to activity records, with three operations (list,
sign up, unregister).  The application module itself (`app.py`) is not part
of the provided sources — only its test suite is — so the registry data
model and the three operations are modelled from the specification
(sections 3, 4.1, 6 and 7 of `spec.md`), faithful to its words, and
cross-checked against the behaviour the tests in `tests/test_app.py`
exercise.
-/

set_option autoImplicit false

namespace ActivityRegistry

/-- Modelled from the spec: the missing `app.py` activity record.  Section 3
of the spec gives the fields of an Activity: `description` and `schedule`
(free-text strings), `max_participants` (positive integer, informational
only), and `participants` (ordered sequence of email strings, insertion
order = signup order).  The `name` field is the lookup key and so lives in
the registry mapping, not in the record. -/
structure Activity where
  description : String
  schedule : String
  max_participants : Nat
  participants : List String
  deriving Repr, DecidableEq

/-- Modelled from the spec: the missing `app.py` registry — "the in-memory
collection of all activities, keyed by name" — embedded as an association
list from activity name to activity record.  The spec's invariant that
activity names are unique within the registry makes the association list
observationally a finite map. -/
abbrev Registry := List (String × Activity)

/-- Look up the activity record stored under `name` (Python `activities[x]`
/ `x in activities`): the first entry whose key equals `name`. -/
def lookupActivity : Registry → String → Option Activity
  | [], _ => none
  | p :: r, name => if p.1 = name then some p.2 else lookupActivity r name

/-- Replace the participants sequence of the activity entries keyed `name`
(the in-place mutation of `activities[name]["participants"]`); every other
entry is untouched. -/
def setParticipants : Registry → String → List String → Registry
  | [], _, _ => []
  | p :: r, name, ps =>
      (if p.1 = name then (p.1, { p.2 with participants := ps }) else p)
        :: setParticipants r name ps

/-- An HTTP response as observed by the tests: status code plus the payload
string (the `message` body on success, the `detail` string on failure). -/
structure Response where
  status : Nat
  body : String
  deriving Repr, DecidableEq

/-- Modelled from the spec: the missing `app.py` GET `/activities` handler.
"**List**: returns the full mapping of activity name → activity record
(including current participants). No error conditions; always succeeds."
It returns status 200 and the registry itself; the state is not changed. -/
def getActivities (r : Registry) : (Nat × Registry) × Registry :=
  ((200, r), r)

/-- Modelled from the spec: the missing `app.py` POST
`/activities/{name}/signup` handler.  "Fails with `NotFound` (404,
detail "Activity not found") if `activity_name` is not a key in the
registry.  Fails with `AlreadyRegistered` (400, detail "...already signed
up...") if `email` is already present in that activity's participants.
Otherwise appends `email` to the participants sequence (order-preserving)
and succeeds, producing a confirmation message naming both the email and
the activity": `{"message": "Signed up {email} for {name}"}`.  Returns the
response together with the registry after the call. -/
def signup (r : Registry) (name email : String) : Response × Registry :=
  match lookupActivity r name with
  | none => (⟨404, "Activity not found"⟩, r)
  | some a =>
      if email ∈ a.participants then
        (⟨400, email ++ " is already signed up for " ++ name⟩, r)
      else
        (⟨200, "Signed up " ++ email ++ " for " ++ name⟩,
         setParticipants r name (a.participants ++ [email]))

/-- Modelled from the spec: the missing `app.py` DELETE
`/activities/{name}/unregister` handler.  "Fails with `NotFound` (404) if
the activity does not exist.  Fails with `NotRegistered` (400, detail
"...not registered...") if `email` is not currently in the participant
sequence.  Otherwise removes the single matching entry and succeeds,
producing a confirmation message" `{"message": "Unregistered ..."}`. -/
def unregister (r : Registry) (name email : String) : Response × Registry :=
  match lookupActivity r name with
  | none => (⟨404, "Activity not found"⟩, r)
  | some a =>
      if email ∈ a.participants then
        (⟨200, "Unregistered " ++ email ++ " from " ++ name⟩,
         setParticipants r name (a.participants.erase email))
      else
        (⟨400, email ++ " is not registered for " ++ name⟩, r)

/-- Modelled from the spec: the missing `app.py` seed state.  "The registry
is pre-populated at startup with a fixed set of activities and seed
participants."  The spec's scenario fixes that "Chess Club" initially
contains `michael@mergington.edu`; the tests also rely on "Programming
Class" existing.  Descriptions, schedules, capacities and the remaining
seed participants are representative hard-coded seed data in the same
shape. -/
def chessClubSeed : Activity :=
  { description := "Learn strategies and compete in chess tournaments"
    schedule := "Fridays, 3:30 PM - 5:00 PM"
    max_participants := 12
    participants := ["michael@mergington.edu", "daniel@mergington.edu"] }

def programmingClassSeed : Activity :=
  { description := "Learn programming fundamentals and build software projects"
    schedule := "Tuesdays and Thursdays, 3:30 PM - 4:30 PM"
    max_participants := 20
    participants := ["emma@mergington.edu", "sophia@mergington.edu"] }

def gymClassSeed : Activity :=
  { description := "Physical education and sports activities"
    schedule := "Mondays, Wednesdays, Fridays, 2:00 PM - 3:00 PM"
    max_participants := 30
    participants := ["john@mergington.edu", "olivia@mergington.edu"] }

def initialActivities : Registry :=
  [("Chess Club", chessClubSeed),
   ("Programming Class", programmingClassSeed),
   ("Gym Class", gymClassSeed)]

/-- The spec invariant on registry state: "An email appears at most once in
a given activity's `participants` sequence." -/
def RegistryNodup (r : Registry) : Prop :=
  ∀ p ∈ r, (Prod.snd p).participants.Nodup

instance (r : Registry) : Decidable (RegistryNodup r) := by
  unfold RegistryNodup; infer_instance

/-! ## Basic lemmas about the registry operations -/

theorem lookup_setParticipants_self (r : Registry) (name : String)
    (ps : List String) :
    lookupActivity (setParticipants r name ps) name =
      (lookupActivity r name).map (fun a => { a with participants := ps }) := by
  induction r with
  | nil => rfl
  | cons p r ih =>
      by_cases h : p.1 = name <;>
        simp [setParticipants, lookupActivity, h, ih]

theorem lookup_setParticipants_other (r : Registry) (name other : String)
    (ps : List String) (hne : other ≠ name) :
    lookupActivity (setParticipants r name ps) other = lookupActivity r other := by
  induction r with
  | nil => rfl
  | cons p r ih =>
      by_cases h : p.1 = name
      · simp [setParticipants, lookupActivity, h, hne, Ne.symm hne, ih]
      · by_cases h2 : p.1 = other <;>
          simp [setParticipants, lookupActivity, h, h2, hne, Ne.symm hne, ih]

theorem lookupActivity_mem {r : Registry} {name : String} {a : Activity}
    (h : lookupActivity r name = some a) : ∃ k, (k, a) ∈ r := by
  induction r with
  | nil => simp [lookupActivity] at h
  | cons p r ih =>
      by_cases hk : p.1 = name
      · simp [lookupActivity, hk] at h
        exact ⟨p.1, by simp [← h]⟩
      · simp [lookupActivity, hk] at h
        obtain ⟨k, hm⟩ := ih h
        exact ⟨k, List.mem_cons_of_mem _ hm⟩

theorem mem_setParticipants {r : Registry} {name : String} {ps : List String}
    {q : String × Activity} (h : q ∈ setParticipants r name ps) :
    q ∈ r ∨ ∃ p ∈ r, p.1 = name ∧ q = (p.1, { p.2 with participants := ps }) := by
  induction r with
  | nil => simp [setParticipants] at h
  | cons p r ih =>
      simp only [setParticipants] at h
      rcases List.mem_cons.mp h with h | h
      · by_cases hk : p.1 = name
        · rw [if_pos hk] at h
          exact Or.inr ⟨p, List.mem_cons_self p r, hk, h⟩
        · rw [if_neg hk] at h
          exact Or.inl (List.mem_cons.mpr (Or.inl h))
      · rcases ih h with h | ⟨p', hp', hk', he⟩
        · exact Or.inl (List.mem_cons_of_mem _ h)
        · exact Or.inr ⟨p', List.mem_cons_of_mem _ hp', hk', he⟩

theorem registryNodup_setParticipants {r : Registry} {name : String}
    {ps : List String} (hr : RegistryNodup r) (hps : ps.Nodup) :
    RegistryNodup (setParticipants r name ps) := by
  intro q hq
  rcases mem_setParticipants hq with h | ⟨p, _, _, he⟩
  · exact hr q h
  · rw [he]; exact hps

theorem lookup_eq_none {r : Registry} {name : String}
    (h : ∀ p ∈ r, p.1 ≠ name) : lookupActivity r name = none := by
  induction r with
  | nil => rfl
  | cons p r ih =>
      simp only [lookupActivity, if_neg (h p (List.mem_cons_self p r))]
      exact ih fun q hq => h q (List.mem_cons_of_mem _ hq)

/-! ## The claims -/

/-- Claim C1: for every activity name that is a key in the registry and
every email not already in that activity's participants sequence, sign-up
appends the email at the end of the sequence (order-preserving), increases
the participant count by exactly 1, and returns HTTP 200 with a
confirmation message containing both the email and the activity name. -/
theorem signup_new_email_ok (r : Registry) (name email : String) (a : Activity)
    (hfind : lookupActivity r name = some a)
    (hmem : email ∉ a.participants) :
    (signup r name email).1.status = 200 ∧
    (signup r name email).1.body = "Signed up " ++ email ++ " for " ++ name ∧
    lookupActivity (signup r name email).2 name =
      some { a with participants := a.participants ++ [email] } ∧
    (a.participants ++ [email]).length = a.participants.length + 1 := by
  refine ⟨?_, ?_, ?_, by simp⟩
  · simp [signup, hfind, hmem]
  · simp [signup, hfind, hmem]
  · simp only [signup, hfind]
    rw [if_neg hmem]
    rw [lookup_setParticipants_self, hfind]
    rfl

theorem signup_new_email_ok_witness :
    (signup initialActivities "Chess Club" "newstudent@mergington.edu").1.status = 200 :=
  (signup_new_email_ok initialActivities "Chess Club" "newstudent@mergington.edu"
    chessClubSeed (by decide) (by decide)).1

/-- Claim C2: for every activity in the registry and every email already
present (exactly once) in that activity's participants, a second sign-up
call with that email returns HTTP 400 with an AlreadyRegistered detail and
leaves the registry unchanged — the email still occurs exactly once. -/
theorem signup_duplicate_rejected (r : Registry) (name email : String) (a : Activity)
    (hfind : lookupActivity r name = some a)
    (hmem : email ∈ a.participants)
    (hcount : a.participants.count email = 1) :
    (signup r name email).1.status = 400 ∧
    (signup r name email).1.body = email ++ " is already signed up for " ++ name ∧
    (signup r name email).2 = r ∧
    ∀ b, lookupActivity (signup r name email).2 name = some b →
      b.participants.count email = 1 := by
  have hs : signup r name email =
      (⟨400, email ++ " is already signed up for " ++ name⟩, r) := by
    simp [signup, hfind, hmem]
  refine ⟨by rw [hs], by rw [hs], by rw [hs], ?_⟩
  intro b hb
  rw [hs] at hb
  simp only at hb
  rw [hfind] at hb
  cases hb
  exact hcount

theorem signup_duplicate_rejected_witness :
    (signup initialActivities "Chess Club" "michael@mergington.edu").1.status = 400 :=
  (signup_duplicate_rejected initialActivities "Chess Club" "michael@mergington.edu"
    chessClubSeed (by decide) (by decide) (by decide)).1

/-- Claim C3: for every string that is not a key in the registry and every
email value, both sign-up and unregister return HTTP 404 with detail
"Activity not found", and the registry state is unchanged. -/
theorem unknown_activity_not_found (r : Registry) (name email : String)
    (h : ∀ p ∈ r, p.1 ≠ name) :
    signup r name email = (⟨404, "Activity not found"⟩, r) ∧
    unregister r name email = (⟨404, "Activity not found"⟩, r) := by
  have hn := lookup_eq_none h
  constructor <;> simp [signup, unregister, hn]

theorem unknown_activity_not_found_witness :
    signup initialActivities "Non-Existent Club" "student@mergington.edu" =
      (⟨404, "Activity not found"⟩, initialActivities) :=
  (unknown_activity_not_found initialActivities "Non-Existent Club"
    "student@mergington.edu" (by decide)).1

/-- Claim C4: for every activity in the registry, if the given email is in
the participants sequence, unregister removes exactly that single entry
(the count of that email drops by 1, every other email's count is
unchanged, the length drops by 1) and returns HTTP 200 with a confirmation
message; if the email is absent, unregister returns HTTP 400 with a
NotRegistered detail and leaves the state unchanged. -/
theorem unregister_spec (r : Registry) (name email : String) (a : Activity)
    (hfind : lookupActivity r name = some a) :
    (email ∈ a.participants →
      (unregister r name email).1.status = 200 ∧
      (unregister r name email).1.body = "Unregistered " ++ email ++ " from " ++ name ∧
      lookupActivity (unregister r name email).2 name =
        some { a with participants := a.participants.erase email } ∧
      (a.participants.erase email).length + 1 = a.participants.length ∧
      (a.participants.erase email).count email + 1 = a.participants.count email ∧
      ∀ x, x ≠ email → (a.participants.erase email).count x = a.participants.count x) ∧
    (email ∉ a.participants →
      (unregister r name email).1.status = 400 ∧
      (unregister r name email).1.body = email ++ " is not registered for " ++ name ∧
      (unregister r name email).2 = r) := by
  constructor
  · intro hmem
    have hu : unregister r name email =
        (⟨200, "Unregistered " ++ email ++ " from " ++ name⟩,
         setParticipants r name (a.participants.erase email)) := by
      simp [unregister, hfind, hmem]
    refine ⟨by rw [hu], by rw [hu], ?_, ?_, ?_, ?_⟩
    · rw [hu]
      simp only
      rw [lookup_setParticipants_self, hfind]
      rfl
    · rw [List.length_erase_of_mem hmem]
      exact Nat.succ_pred_eq_of_pos (List.length_pos.mpr (List.ne_nil_of_mem hmem))
    · rw [List.count_erase_self]
      exact Nat.succ_pred_eq_of_pos (List.count_pos_iff.mpr hmem)
    · intro x hx
      exact List.count_erase_of_ne hx a.participants
  · intro hmem
    have hu : unregister r name email =
        (⟨400, email ++ " is not registered for " ++ name⟩, r) := by
      simp [unregister, hfind, hmem]
    exact ⟨by rw [hu], by rw [hu], by rw [hu]⟩

theorem unregister_spec_witness :
    (unregister initialActivities "Chess Club" "michael@mergington.edu").1.status = 200 :=
  ((unregister_spec initialActivities "Chess Club" "michael@mergington.edu"
    chessClubSeed (by decide)).1 (by decide)).1

/-- Claim C5: for every activity in the registry and every email not
initially in its participants, sign-up followed by unregister of the same
email on the same activity restores the activity record observed under
that name to its pre-signup value — in particular the participants
sequence's length returns to its pre-signup value and the email (absent
before, by hypothesis) is no longer present. -/
theorem signup_unregister_roundtrip (r : Registry) (name email : String) (a : Activity)
    (hfind : lookupActivity r name = some a)
    (hmem : email ∉ a.participants) :
    (signup r name email).1.status = 200 ∧
    (unregister (signup r name email).2 name email).1.status = 200 ∧
    lookupActivity (unregister (signup r name email).2 name email).2 name = some a ∧
    email ∉ a.participants := by
  have hs1 : (signup r name email).1.status = 200 := by
    simp [signup, hfind, hmem]
  have hs2 : (signup r name email).2 =
      setParticipants r name (a.participants ++ [email]) := by
    simp [signup, hfind, hmem]
  have hl : lookupActivity (signup r name email).2 name =
      some { a with participants := a.participants ++ [email] } := by
    rw [hs2, lookup_setParticipants_self, hfind]
    rfl
  have hin : email ∈ a.participants ++ [email] := by simp
  have he : (a.participants ++ [email]).erase email = a.participants := by
    rw [List.erase_append_right _ hmem]
    simp
  have hu : unregister (signup r name email).2 name email =
      (⟨200, "Unregistered " ++ email ++ " from " ++ name⟩,
       setParticipants (signup r name email).2 name a.participants) := by
    simp [unregister, hl, hin, he]
  refine ⟨hs1, by rw [hu], ?_, hmem⟩
  rw [hu]
  simp only
  rw [lookup_setParticipants_self, hl]
  rfl

theorem signup_unregister_roundtrip_witness :
    lookupActivity
      (unregister (signup initialActivities "Chess Club" "testuser@mergington.edu").2
        "Chess Club" "testuser@mergington.edu").2 "Chess Club" = some chessClubSeed :=
  (signup_unregister_roundtrip initialActivities "Chess Club" "testuser@mergington.edu"
    chessClubSeed (by decide) (by decide)).2.2.1

/-- Claim C6: the List operation always succeeds with status 200 and
returns the full registry mapping unchanged, and every returned activity
record consists of exactly the fields description, schedule,
max_participants and participants (a sequence). -/
theorem getActivities_total (r : Registry) :
    (getActivities r).1.1 = 200 ∧
    (getActivities r).1.2 = r ∧
    (getActivities r).2 = r ∧
    ∀ p ∈ (getActivities r).1.2, p.2 =
      { description := p.2.description, schedule := p.2.schedule,
        max_participants := p.2.max_participants,
        participants := p.2.participants } :=
  ⟨rfl, rfl, rfl, fun _ _ => rfl⟩

theorem getActivities_total_witness :
    (getActivities initialActivities).1.1 = 200 :=
  (getActivities_total initialActivities).1

/-- Claim C7: no operation enforces max_participants: sign-up of a new
email returns HTTP 200 and appends it even when the current participant
count is at or above max_participants — there is no capacity check. -/
theorem no_capacity_check (r : Registry) (name email : String) (a : Activity)
    (hfind : lookupActivity r name = some a)
    (hmem : email ∉ a.participants)
    (hfull : a.max_participants ≤ a.participants.length) :
    (signup r name email).1.status = 200 ∧
    lookupActivity (signup r name email).2 name =
      some { a with participants := a.participants ++ [email] } := by
  constructor
  · simp [signup, hfind, hmem]
  · simp only [signup, hfind]
    rw [if_neg hmem]
    rw [lookup_setParticipants_self, hfind]
    rfl

/-- An activity already at its capacity hint, used to exercise the absence
of a capacity check. -/
def fullActivity : Activity :=
  { description := "An activity whose participant count equals its capacity hint"
    schedule := "Mondays, 4:00 PM - 5:00 PM"
    max_participants := 2
    participants := ["a@mergington.edu", "b@mergington.edu"] }

theorem no_capacity_check_witness :
    (signup [("Full Club", fullActivity)] "Full Club" "c@mergington.edu").1.status = 200 :=
  (no_capacity_check [("Full Club", fullActivity)] "Full Club" "c@mergington.edu"
    fullActivity (by decide) (by decide) (by decide)).1

/-- Case-insensitive comparison of two strings, used only to express
"differs only in letter case": equality of the lowercased character
sequences. -/
def sameLowered (s₁ s₂ : String) : Prop :=
  s₁.data.map Char.toLower = s₂.data.map Char.toLower

instance (s₁ s₂ : String) : Decidable (sameLowered s₁ s₂) := by
  unfold sameLowered; infer_instance

/-- Claim C8: email membership is decided by exact string match with no
case normalization: signing up an email that differs from a present one
only in letter case (same lowercasing, different string) succeeds and
yields a sequence holding both as distinct entries, and unregistering an
absent case-variant returns HTTP 400 NotRegistered with no state change. -/
theorem exact_string_match (r : Registry) (name e1 e2 : String) (a : Activity)
    (hfind : lookupActivity r name = some a)
    (h1 : e1 ∈ a.participants)
    (hcase : sameLowered e2 e1)
    (hne : e2 ≠ e1)
    (h2 : e2 ∉ a.participants) :
    (signup r name e2).1.status = 200 ∧
    lookupActivity (signup r name e2).2 name =
      some { a with participants := a.participants ++ [e2] } ∧
    e1 ∈ a.participants ++ [e2] ∧
    e2 ∈ a.participants ++ [e2] ∧
    (unregister r name e2).1.status = 400 ∧
    (unregister r name e2).2 = r := by
  refine ⟨?_, ?_, by simp [h1], by simp, ?_, ?_⟩
  · simp [signup, hfind, h2]
  · simp only [signup, hfind]
    rw [if_neg h2]
    rw [lookup_setParticipants_self, hfind]
    rfl
  · simp [unregister, hfind, h2]
  · simp [unregister, hfind, h2]

theorem exact_string_match_witness :
    (signup initialActivities "Chess Club" "Michael@mergington.edu").1.status = 200 :=
  (exact_string_match initialActivities "Chess Club" "michael@mergington.edu"
    "Michael@mergington.edu" chessClubSeed (by decide) (by decide) (by decide)
    (by decide) (by decide)).1

/-- Claim C9: the invariant that each email appears at most once in a
given activity's participants sequence holds of the seed state and is
preserved by every operation (List, sign-up, unregister) in every
outcome. -/
theorem nodup_invariant :
    RegistryNodup initialActivities ∧
    ∀ r name email, RegistryNodup r →
      RegistryNodup (getActivities r).2 ∧
      RegistryNodup (signup r name email).2 ∧
      RegistryNodup (unregister r name email).2 := by
  refine ⟨by decide, ?_⟩
  intro r name email hr
  refine ⟨hr, ?_, ?_⟩
  · cases hfind : lookupActivity r name with
    | none =>
        have hid : (signup r name email).2 = r := by simp [signup, hfind]
        rw [hid]; exact hr
    | some a =>
        by_cases hmem : email ∈ a.participants
        · have hid : (signup r name email).2 = r := by simp [signup, hfind, hmem]
          rw [hid]; exact hr
        · have hstep : (signup r name email).2 =
              setParticipants r name (a.participants ++ [email]) := by
            simp [signup, hfind, hmem]
          rw [hstep]
          obtain ⟨k, hk⟩ := lookupActivity_mem hfind
          have hnd : a.participants.Nodup := hr (k, a) hk
          exact registryNodup_setParticipants hr
            (by simp [List.nodup_append, hnd, hmem])
  · cases hfind : lookupActivity r name with
    | none =>
        have hid : (unregister r name email).2 = r := by simp [unregister, hfind]
        rw [hid]; exact hr
    | some a =>
        by_cases hmem : email ∈ a.participants
        · have hstep : (unregister r name email).2 =
              setParticipants r name (a.participants.erase email) := by
            simp [unregister, hfind, hmem]
          rw [hstep]
          obtain ⟨k, hk⟩ := lookupActivity_mem hfind
          have hnd : a.participants.Nodup := hr (k, a) hk
          exact registryNodup_setParticipants hr (hnd.erase email)
        · have hid : (unregister r name email).2 = r := by
            simp [unregister, hfind, hmem]
          rw [hid]; exact hr

theorem nodup_invariant_witness :
    RegistryNodup (signup initialActivities "Chess Club" "newstudent@mergington.edu").2 :=
  (nodup_invariant.2 initialActivities "Chess Club" "newstudent@mergington.edu"
    (by decide)).2.1

/-- Claim C10: a sign-up or unregister on one activity leaves every other
activity's record unchanged, and the same email may simultaneously be a
participant of several activities: signing an email up for one activity
succeeds regardless of its membership in another, after which the email is
a participant of both. -/
theorem frame_and_no_cross_exclusion (r : Registry) (name other email : String)
    (hne : other ≠ name) :
    lookupActivity (signup r name email).2 other = lookupActivity r other ∧
    lookupActivity (unregister r name email).2 other = lookupActivity r other ∧
    (∀ a b, lookupActivity r name = some a → email ∉ a.participants →
      lookupActivity r other = some b → email ∈ b.participants →
      (signup r name email).1.status = 200 ∧
      (∃ a2, lookupActivity (signup r name email).2 name = some a2 ∧
        email ∈ a2.participants) ∧
      (∃ b2, lookupActivity (signup r name email).2 other = some b2 ∧
        email ∈ b2.participants)) := by
  have hframe_s : lookupActivity (signup r name email).2 other = lookupActivity r other := by
    cases hfind : lookupActivity r name with
    | none => simp [signup, hfind]
    | some a =>
        by_cases hmem : email ∈ a.participants
        · simp [signup, hfind, hmem]
        · have hstep : (signup r name email).2 =
              setParticipants r name (a.participants ++ [email]) := by
            simp [signup, hfind, hmem]
          rw [hstep, lookup_setParticipants_other _ _ _ _ hne]
  have hframe_u : lookupActivity (unregister r name email).2 other = lookupActivity r other := by
    cases hfind : lookupActivity r name with
    | none => simp [unregister, hfind]
    | some a =>
        by_cases hmem : email ∈ a.participants
        · have hstep : (unregister r name email).2 =
              setParticipants r name (a.participants.erase email) := by
            simp [unregister, hfind, hmem]
          rw [hstep, lookup_setParticipants_other _ _ _ _ hne]
        · simp [unregister, hfind, hmem]
  refine ⟨hframe_s, hframe_u, ?_⟩
  intro a b hfa hmema hfb hmemb
  have hs2 : (signup r name email).2 =
      setParticipants r name (a.participants ++ [email]) := by
    simp [signup, hfa, hmema]
  refine ⟨by simp [signup, hfa, hmema],
    ⟨{ a with participants := a.participants ++ [email] }, ?_, by simp⟩,
    ⟨b, ?_, hmemb⟩⟩
  · rw [hs2, lookup_setParticipants_self, hfa]
    rfl
  · rw [hframe_s, hfb]

theorem frame_and_no_cross_exclusion_witness :
    lookupActivity
      (signup initialActivities "Programming Class" "michael@mergington.edu").2
      "Chess Club" = lookupActivity initialActivities "Chess Club" :=
  (frame_and_no_cross_exclusion initialActivities "Programming Class" "Chess Club"
    "michael@mergington.edu" (by decide)).1

end ActivityRegistry
